import Mathlib

/-!
# GestureDrop — verification of the core components

A shallow embedding of the GestureDrop repository (`Vision/`): the subnet
policy guard (`network_utils.py`), the peer discovery engine
(`peer_discovery.py`), the framed transfer protocol (`sender.py`,
`receiver.py`) and the single-flight operation coordinator (`main.py`).
Python strings are modelled as `List Char`, byte strings as `List Nat`
(each element < 256), and `time.time()` values as integer timestamps
(the claims about them only use ordered arithmetic).
-/

namespace GestureDrop

/-! ## String primitives

`splitChar sep` mirrors Python's `str.split(sep)` for a one-character
separator: `"".split(".") = [""]`, `"a..b".split(".") = ["a","","b"]`. -/

def splitChar (sep : Char) : List Char → List (List Char)
  | [] => [[]]
  | c :: rest =>
    let r := splitChar sep rest
    if c = sep then [] :: r
    else
      match r with
      | h :: t => (c :: h) :: t
      | [] => [[c]]

/-- Convert a Lean string literal to the character-list model. -/
def chars (s : String) : List Char := s.data

/-! ## Model of the Python standard library `ipaddress.ip_address`

`network_utils.is_same_subnet` calls `ipaddress.ip_address(...)` and its
`is_loopback` property.  The definitions below model CPython's textual
parsing (`IPv4Address._parse_octet`, the IPv6 `_ip_int_from_string`
algorithm with `::` compression, embedded dotted quads and `%scope` ids). -/

/-- CPython `IPv4Address._parse_octet`: nonempty, decimal digits only, at
most 3 characters, no leading zero, value ≤ 255. -/
def parseOctet (s : List Char) : Option Nat :=
  if s.isEmpty then none
  else if !(s.all Char.isDigit) then none
  else if s.length > 3 then none
  else if s.length > 1 && (s.headD ' ' = '0') then none
  else
    let v := s.foldl (fun a c => a * 10 + (c.toNat - 48)) 0
    if v > 255 then none else some v

/-- CPython IPv4 textual parse: exactly four octets separated by dots. -/
def parseIPv4 (s : List Char) : Option Nat :=
  match (splitChar '.' s).mapM parseOctet with
  | some [a, b, c, d] => some (((a * 256 + b) * 256 + c) * 256 + d)
  | _ => none

def hexVal (c : Char) : Option Nat :=
  if '0' ≤ c ∧ c ≤ '9' then some (c.toNat - 48)
  else if 'a' ≤ c ∧ c ≤ 'f' then some (c.toNat - 87)
  else if 'A' ≤ c ∧ c ≤ 'F' then some (c.toNat - 55)
  else none

/-- CPython `IPv6Address._parse_hextet`: hex digits only, 1–4 characters. -/
def parseHextet (s : List Char) : Option Nat :=
  match s.mapM hexVal with
  | none => none
  | some ds =>
    if s.length > 4 || s.isEmpty then none
    else some (ds.foldl (fun a d => a * 16 + d) 0)

def hexDigitChar (n : Nat) : Char :=
  if n < 10 then Char.ofNat (48 + n) else Char.ofNat (87 + n)

/-- Python `'%x' % n` for the 16-bit values produced while embedding a
dotted quad inside an IPv6 address. -/
def formatHex16 (n : Nat) : List Char :=
  if n < 16 then [hexDigitChar n]
  else if n < 256 then [hexDigitChar (n / 16), hexDigitChar (n % 16)]
  else if n < 4096 then
    [hexDigitChar (n / 256), hexDigitChar (n / 16 % 16), hexDigitChar (n % 16)]
  else
    [hexDigitChar (n / 4096), hexDigitChar (n / 256 % 16),
     hexDigitChar (n / 16 % 16), hexDigitChar (n % 16)]

/-- Fold a list of 16-bit hextets into an address integer
(`ip_int <<= 16; ip_int |= hextet`). -/
def foldHextets (init : Nat) (hs : List Nat) : Nat :=
  hs.foldl (fun a h => a * 65536 + h) init

/-- CPython IPv6 `_ip_int_from_string`: split on `:`, expand a trailing
dotted quad, locate at most one interior `::`, check the leading/trailing
colon rules and assemble the 128-bit integer. -/
def parseIPv6core (addr : List Char) : Option Nat :=
  if addr.isEmpty then none
  else
    let parts0 := splitChar ':' addr
    if parts0.length < 3 then none
    else
      let step1 : Option (List (List Char)) :=
        if (parts0.getLastD []).contains '.' then
          match parseIPv4 (parts0.getLastD []) with
          | none => none
          | some v4 =>
            some (parts0.dropLast ++ [formatHex16 (v4 / 65536), formatHex16 (v4 % 65536)])
        else some parts0
      match step1 with
      | none => none
      | some parts =>
        if parts.length > 9 then none
        else
          let empties := (List.range parts.length).filter
            (fun i => decide (0 < i) && decide (i + 1 < parts.length) &&
              (parts.getD i [' ']).isEmpty)
          match empties with
          | [] =>
            if parts.length ≠ 8 then none
            else if (parts.headD [' ']).isEmpty then none
            else if (parts.getLastD [' ']).isEmpty then none
            else
              match parts.mapM parseHextet with
              | some hs => some (foldHextets 0 hs)
              | none => none
          | [i] =>
            let hiOpt : Option Nat :=
              if (parts.headD [' ']).isEmpty then
                if i - 1 = 0 then some 0 else none
              else some i
            let loOpt : Option Nat :=
              if (parts.getLastD [' ']).isEmpty then
                if parts.length - i - 2 = 0 then some 0 else none
              else some (parts.length - i - 1)
            match hiOpt, loOpt with
            | some hi, some lo =>
              if 8 < hi + lo + 1 then none
              else
                match (parts.take hi).mapM parseHextet,
                      (parts.drop (parts.length - lo)).mapM parseHextet with
                | some his, some los =>
                  some (foldHextets (foldHextets 0 his * 65536 ^ (8 - (hi + lo))) los)
                | _, _ => none
            | _, _ => none
          | _ => none

/-- CPython `IPv6Address.__init__`: reject `/`, strip a nonempty scope id
after the first `%` (a second `%` is invalid), then parse the address. -/
def parseIPv6 (s : List Char) : Option Nat :=
  if s.contains '/' then none
  else
    match splitChar '%' s with
    | [addr] => parseIPv6core addr
    | [addr, scope] => if scope.isEmpty then none else parseIPv6core addr
    | _ => none

inductive IPAddr
  | v4 (addr : Nat)
  | v6 (addr : Nat)
deriving DecidableEq

/-- `ipaddress.ip_address(s)`: try IPv4 first, then IPv6; `none` models the
`ValueError` raised when neither parse succeeds. -/
def ip_address (s : List Char) : Option IPAddr :=
  match parseIPv4 s with
  | some n => some (.v4 n)
  | none =>
    match parseIPv6 s with
    | some n => some (.v6 n)
    | none => none

/-- `is_loopback`: IPv4 `127.0.0.0/8`; IPv6 `::1`. -/
def IPAddr.is_loopback : IPAddr → Bool
  | .v4 n => n / 16777216 = 127
  | .v6 n => n = 1

/-! ## `network_utils.py` -/

/-- `get_subnet_prefix(ip)`: the first three dotted octets, or `""` when the
string does not split into exactly four dot-separated parts. -/
def get_subnet_prefix (ip : List Char) : List Char :=
  let parts := splitChar '.' ip
  if parts.length = 4 then List.intercalate ['.'] (parts.take 3) else []

/-- `is_same_subnet(ip_a, ip_b)`: `False` if either address fails to parse
(`except ValueError`) or is loopback; otherwise compare `/24` prefixes. -/
def is_same_subnet (ip_a ip_b : List Char) : Bool :=
  match ip_address ip_a with
  | none => false
  | some a =>
    if a.is_loopback then false
    else
      match ip_address ip_b with
      | none => false
      | some b =>
        if b.is_loopback then false
        else get_subnet_prefix ip_a == get_subnet_prefix ip_b

/-- `verify_peer_subnet(peer_ip, own_ip)` calls `is_same_subnet(own_ip, peer_ip)`. -/
def verify_peer_subnet (peer_ip own_ip : List Char) : Bool :=
  is_same_subnet own_ip peer_ip

/-! ## `peer_discovery.py` -/

def PEER_TIMEOUT : ℤ := 10

/-- The per-peer value stored in `PeerDiscovery._peers` (`ip → info`). -/
structure PeerInfo where
  hostname : String
  last_seen : ℤ
  via : String
deriving DecidableEq

/-- The peer table `self._peers`, an insertion-ordered map from ip to info. -/
abbrev PeerTable := List (String × PeerInfo)

/-- `PeerDiscovery.get_peers`: snapshot of entries with
`now - info["last_seen"] < PEER_TIMEOUT`. -/
def get_peers (now : ℤ) (peers : PeerTable) : PeerTable :=
  peers.filter (fun p => now - p.2.last_seen < PEER_TIMEOUT)

/-- `PeerDiscovery.best_peer`: `max(peers, key=last_seen)` of the snapshot,
`None` when empty (Python `max` keeps the first of equally-recent peers). -/
def best_peer (now : ℤ) (peers : PeerTable) : Option (String × PeerInfo) :=
  match get_peers now peers with
  | [] => none
  | p :: ps =>
    some (ps.foldl (fun best q => if q.2.last_seen > best.2.last_seen then q else best) p)

/-- `PeerDiscovery._upsert_peer`: under the table lock, record whether `ip`
is absent (`is_new`) and store a fresh `{hostname, last_seen, via}` record
(Python dict assignment: replace in place, or append a new key).  Returns
the new table and whether `on_peer_joined` fires. -/
def _upsert_peer (peers : PeerTable) (ip : String) (hostname : String)
    (now : ℤ) (via : String) : PeerTable × Bool :=
  let is_new := !(peers.any (fun p => p.1 == ip))
  let updated : PeerTable :=
    if is_new then peers ++ [(ip, ⟨hostname, now, via⟩)]
    else peers.map (fun p => if p.1 == ip then (ip, ⟨hostname, now, via⟩) else p)
  (updated, is_new)

/-- `del self._peers[ip]` in the cleanup monitor (the eviction sweep). -/
def evictPeer (peers : PeerTable) (ip : String) : PeerTable :=
  peers.filter (fun p => !(p.1 == ip))

/-! ## Transfer protocol framing (`sender.py` / `receiver.py`) -/

/-- `struct.pack("I", n)` (native little-endian, 4 bytes). -/
def packU32 (n : Nat) : List Nat :=
  [n % 256, n / 256 % 256, n / 65536 % 256, n / 16777216 % 256]

/-- `struct.pack("Q", n)` (native little-endian, 8 bytes). -/
def packU64 (n : Nat) : List Nat :=
  [n % 256, n / 256 % 256, n / 65536 % 256, n / 16777216 % 256,
   n / 4294967296 % 256, n / 1099511627776 % 256,
   n / 281474976710656 % 256, n / 72057594037927936 % 256]

/-- `struct.unpack` of a little-endian byte list. -/
def unpackLE (b : List Nat) : Nat :=
  b.foldr (fun x a => a * 256 + x) 0

/-- The wire header built in `start_sender`:
`struct.pack("I", len(filename)) + filename + struct.pack("Q", file_size)`. -/
def encodeHeader (filename : List Nat) (file_size : Nat) : List Nat :=
  packU32 filename.length ++ filename ++ packU64 file_size

def BUFFER_SIZE : Nat := 65536
def TCP_PORT : Nat := 5001
def HOSTING_TIMEOUT : Nat := 60

/-- `conn.recv(k)` on a stream modelled as the flat list of bytes the peer
sent before closing: returns up to `k` bytes from the front, and the empty
chunk exactly when the connection is exhausted. -/
def recv (stream : List Nat) (k : Nat) : List Nat × List Nat :=
  (stream.take k, stream.drop k)

/-- The loop body of `recv_exact`; `fuel` bounds the iteration count (each
round adds at least one byte, so `n` rounds always suffice). -/
def recvExactAux : Nat → List Nat → List Nat → Nat → Option (List Nat × List Nat)
  | fuel, buf, stream, n =>
    if buf.length < n then
      match fuel with
      | 0 => none
      | fuel' + 1 =>
        let chunk := (recv stream (n - buf.length)).1
        if chunk.isEmpty then none
        else recvExactAux fuel' (buf ++ chunk) (recv stream (n - buf.length)).2 n
    else some (buf, stream)

/-- `recv_exact(n)` from `_handle_connection`: read exactly `n` bytes or
raise `ConnectionError` (modelled as `none`) when the peer closes early. -/
def recv_exact (stream : List Nat) (n : Nat) : Option (List Nat × List Nat) :=
  recvExactAux n [] stream n

/-- The receiver's three header reads:
`fn_len = unpack("I", recv_exact(4)); filename = recv_exact(fn_len);
filesize = unpack("Q", recv_exact(8))`. -/
def readHeader (stream : List Nat) : Option (List Nat × Nat × List Nat) :=
  match recv_exact stream 4 with
  | none => none
  | some (b4, s1) =>
    match recv_exact s1 (unpackLE b4) with
    | none => none
    | some (fnBytes, s2) =>
      match recv_exact s2 8 with
      | none => none
      | some (b8, s3) => some (fnBytes, unpackLE b8, s3)

/-- The receiver's body loop: `while received < filesize:` read a chunk of
`min(BUFFER_SIZE, filesize - received)` bytes, breaking on an empty chunk.
`fuel` bounds iterations (each round adds at least one byte). -/
def recvBodyAux : Nat → List Nat → List Nat → Nat → Nat → List Nat × Nat
  | fuel, stream, data, received, filesize =>
    if received < filesize then
      match fuel with
      | 0 => (data, received)
      | fuel' + 1 =>
        if (stream.take (min BUFFER_SIZE (filesize - received))).isEmpty then
          (data, received)
        else
          recvBodyAux fuel'
            (stream.drop (min BUFFER_SIZE (filesize - received)))
            (data ++ stream.take (min BUFFER_SIZE (filesize - received)))
            (received + (stream.take (min BUFFER_SIZE (filesize - received))).length)
            filesize
    else (data, received)

/-- Outcome of one `_handle_connection` run. -/
inductive ReceiveOutcome
  | rejected
  | disconnected
  | incomplete (received filesize : Nat)
  | saved (timestamp : Nat) (filename : List Nat) (data : List Nat)
deriving DecidableEq

/-- A `_handle_connection` run: its outcome, every file persisted to the
receive directory (timestamp, filename bytes, contents), and whether the
connection was closed. -/
structure HandlerRun where
  outcome : ReceiveOutcome
  written : List (Nat × List Nat × List Nat)
  closed : Bool
deriving DecidableEq

/-- `receiver._handle_connection`: subnet guard, header reads via
`recv_exact`, body loop, then save on `received == filesize` (under a
timestamp-qualified name) or report the transfer incomplete.  Every path
ends in `conn.close()` (the reject branch and the `finally` block). -/
def _handle_connection (sender_ip own_ip : List Char) (stream : List Nat)
    (timestamp : Nat) : HandlerRun :=
  if !(verify_peer_subnet sender_ip own_ip) then
    ⟨.rejected, [], true⟩
  else
    match readHeader stream with
    | none => ⟨.disconnected, [], true⟩
    | some (fnBytes, filesize, body) =>
      let r := recvBodyAux filesize body [] 0 filesize
      if r.2 = filesize then
        ⟨.saved timestamp fnBytes r.1, [(timestamp, fnBytes, r.1)], true⟩
      else
        ⟨.incomplete r.2 filesize, [], true⟩

/-! ## `sender.py` — `start_sender`

The sender's main thread is modelled as the sequence of socket operations
it performs; the UDP notify loop runs on a separate thread and is recorded
only by which variant is started.  Environment inputs: the network status,
the file contents (`none` models `FileNotFoundError`), the basename bytes,
and the result of `server.accept()` (`none` models `socket.timeout`). -/

inductive SockEv
  | bindServer (port : Nat)
  | listen (backlog : Nat)
  | setAcceptTimeout (seconds : Nat)
  | notifyDirect (peer : List Char)
  | notifyBroadcast
  | accept (peer : List Char)
  | connect (peer : List Char) (port : Nat)
  | sendall (data : List Nat)
  | closeConn
  | closeServer
deriving DecidableEq

inductive SendOutcome
  | noNetwork
  | fileNotFound
  | acceptTimedOut
  | wrongSubnet
  | sent
deriving DecidableEq

/-- `start_sender(image_path, peer_ip)`: network check; read the file; bind
and listen on `TCP_PORT` with `HOSTING_TIMEOUT`; start the direct or
broadcast notifier; wait for the receiver to connect; verify its subnet;
then send `header + file_data`; close connection and server. -/
def start_sender (net_ok : Bool) (own_ip : List Char) (file_data : Option (List Nat))
    (basename : List Nat) (peer_ip : Option (List Char))
    (acceptRes : Option (List Char)) : List SockEv × SendOutcome :=
  if !net_ok then ([], .noNetwork)
  else
    match file_data with
    | none => ([], .fileNotFound)
    | some data =>
      let notify := match peer_ip with
        | some p => SockEv.notifyDirect p
        | none => SockEv.notifyBroadcast
      let pre := [SockEv.bindServer TCP_PORT, SockEv.listen 1,
                  SockEv.setAcceptTimeout HOSTING_TIMEOUT, notify]
      match acceptRes with
      | none => (pre ++ [SockEv.closeServer], .acceptTimedOut)
      | some receiver_ip =>
        if !(verify_peer_subnet receiver_ip own_ip) then
          (pre ++ [SockEv.accept receiver_ip, SockEv.closeConn, SockEv.closeServer],
           .wrongSubnet)
        else
          (pre ++ [SockEv.accept receiver_ip,
                   SockEv.sendall (encodeHeader basename data.length),
                   SockEv.sendall data,
                   SockEv.closeConn, SockEv.closeServer],
           .sent)

/-! ## `main.py` — operation coordinator -/

/-- The shared operation state: `operation_active` and `operation_status`,
guarded by `operation_lock`. -/
structure OpState where
  active : Bool
  status : String
deriving DecidableEq

/-- A background task launched by the coordinator loop. -/
inductive LaunchedTask
  | senderTask (image_path : String)
  | receiverTask
deriving DecidableEq

/-- One iteration of the gesture-handling block of `main` (lines 142–179):
given the state snapshot read under the lock, the detector's action, the
cached network status and the screenshot path, produce the new shared state
and the list of threads started.  `action` is Python-truthy only when it is
a nonempty string. -/
def coordStep (s : OpState) (action : Option String) (net_ok : Bool)
    (screenshot_path : String) : OpState × List LaunchedTask :=
  match action with
  | none => (s, [])
  | some a =>
    if a = "" then (s, [])
    else if s.active then (s, [])
    else if !net_ok then ({ s with status := "NO WIFI — Connect first!" }, [])
    else if a = "SEND" then
      (⟨true, "HOSTING — waiting for receiver..."⟩, [.senderTask screenshot_path])
    else if a = "RECEIVE" then
      (⟨true, "SEARCHING for sender..."⟩, [.receiverTask])
    else (s, [])

/-- `main.run_sender`: wraps `start_sender`; the argument records whether
the wrapped call returned or raised.  `try` sets `"SEND DONE"`, `except`
sets `"SEND FAILED"`, and the `finally` block resets `operation_active`. -/
def run_sender (result : Except String Unit) : OpState :=
  match result with
  | .ok _ => ⟨false, "SEND DONE"⟩
  | .error _ => ⟨false, "SEND FAILED"⟩

/-- `main.run_receiver`: same shape around `start_receiver`. -/
def run_receiver (result : Except String Unit) : OpState :=
  match result with
  | .ok _ => ⟨false, "RECEIVE DONE"⟩
  | .error _ => ⟨false, "RECEIVE FAILED"⟩

/-! ## Spec-side predicates

These definitions follow the specification's words (not the source); they
exist only to be compared against the source-derived definitions above. -/

/-- Modelled from the spec: a link-local-autoconfiguration address
(IPv4 `169.254.0.0/16`, IPv6 `fe80::/10`). -/
def IPAddr.is_link_local : IPAddr → Bool
  | .v4 n => n / 65536 = 43518
  | .v6 n => n / 2 ^ 118 = 1018

/-- Modelled from the spec: the C4 claim's contract for `sameSubnet` —
true iff neither address is loopback, neither is link-local, and the first
three dotted-decimal octets match. -/
def claimSameSubnet (a b : List Char) : Bool :=
  match ip_address a, ip_address b with
  | some ia, some ib =>
    !ia.is_loopback && !ib.is_loopback &&
    !ia.is_link_local && !ib.is_link_local &&
    ( get_subnet_prefix a == get_subnet_prefix b)
  | _, _ => false

/-- The C2 claim's required gate behaviour: with the network up but
`bestPeer()` empty, an accepted SEND trigger is refused — `active` is left
untouched and no task is launched. -/
def sendRefusesWithoutPeer : Prop :=
  ∀ (s : OpState) (path : String) (now : ℤ) (tbl : PeerTable),
    s.active = false → best_peer now tbl = none →
    (coordStep s (some "SEND") true path).1.active = false ∧
    (coordStep s (some "SEND") true path).2 = []

/-- The C3 claim's required behaviour: once the sender's precondition
checks pass, it performs an outbound connect to the peer's transfer port. -/
def senderConnectsToPeer : Prop :=
  ∀ (own_ip : List Char) (data basename : List Nat) (peer_ip rip : List Char),
    SockEv.connect peer_ip TCP_PORT ∈
      (start_sender true own_ip (some data) basename (some peer_ip) (some rip)).1

/-- The C7 claim's refresh behaviour: re-upserting an address that is still
present only updates `last_seen` and `via`, leaving the stored hostname
unchanged. -/
def refreshKeepsHostname : Prop :=
  ∀ (tbl : PeerTable) (ip hostname : String) (now : ℤ) (via : String) (info : PeerInfo),
    List.lookup ip tbl = some info →
    List.lookup ip (_upsert_peer tbl ip hostname now via).1 =
      some { info with last_seen := now, via := via }

/-! ## Theorems -/

/-- C1: while the shared operation state has `active = true`, any incoming
trigger event is rejected without being queued — the state (including
`statusText`) is unchanged and no task is launched; conversely a task is
ever launched only from a state with `active = false`. -/
theorem single_flight_gate (s : OpState) (a : String) (net_ok : Bool) (path : String)
    (h : s.active = true) :
    coordStep s (some a) net_ok path = (s, []) ∧
    ∀ (s' : OpState) (act : Option String) (n' : Bool) (p' : String),
      (coordStep s' act n' p').2 ≠ [] → s'.active = false := by
  constructor
  · by_cases ha : a = "" <;> simp [coordStep, ha, h]
  · intro s' act n' p' hne
    cases act with
    | none => simp [coordStep] at hne
    | some b =>
      cases hact : s'.active with
      | false => rfl
      | true =>
        exfalso
        by_cases hb : b = "" <;> simp [coordStep, hb, hact] at hne

theorem single_flight_gate_witness :
    (⟨true, "BUSY"⟩ : OpState).active = true ∧
    coordStep ⟨true, "BUSY"⟩ (some "SEND") true "shot.png" = (⟨true, "BUSY"⟩, []) :=
  ⟨rfl, (single_flight_gate ⟨true, "BUSY"⟩ "SEND" true "shot.png" rfl).1⟩

/-- C2 counterexample: the coordinator performs no peer-availability check —
even with an empty peer table (`best_peer = none`) a SEND trigger on a good
network sets `active` and launches the sender. -/
theorem coordStep_no_peer_check : ¬ sendRefusesWithoutPeer :=
  fun h => absurd (h ⟨false, ""⟩ "shot.png" 0 [] rfl rfl) (by decide)

/-- C2 (amended): accepting a SEND trigger first performs the
network-availability check, which reports the distinct no-network status
without touching `active`; otherwise it sets `active = true`, publishes the
hosting status, and launches the sender thread with the snapshotted
screenshot path.  No peer-availability check via `bestPeer()` is made and
no target peer is snapshotted. -/
theorem coordinator_send_accept (s : OpState) (path : String) (h : s.active = false) :
    coordStep s (some "SEND") false path =
      ({ s with status := "NO WIFI — Connect first!" }, []) ∧
    coordStep s (some "SEND") true path =
      (⟨true, "HOSTING — waiting for receiver..."⟩, [.senderTask path]) := by
  constructor <;> simp [coordStep, h]

theorem coordinator_send_accept_witness :
    (⟨false, ""⟩ : OpState).active = false ∧
    coordStep ⟨false, ""⟩ (some "SEND") true "shot.png" =
      (⟨true, "HOSTING — waiting for receiver..."⟩, [.senderTask "shot.png"]) :=
  ⟨rfl, (coordinator_send_accept ⟨false, ""⟩ "shot.png" rfl).2⟩

/-- C3 counterexample: `start_sender` never performs an outbound connect to
the peer's transfer port — it hosts a server and waits for the receiver to
connect in. -/
theorem start_sender_never_connects : ¬ senderConnectsToPeer :=
  fun h => absurd (h [] [] [] [] []) (by decide)

/-- C3 (amended): after its precondition checks pass, the sender binds a
TCP server on the transfer port with a bounded accept timeout, notifies the
peer, accepts one inbound connection, verifies the receiver's subnet, and
then writes the header followed by the file contents before closing. -/
theorem start_sender_hosts (own_ip : List Char) (data basename : List Nat)
    (peer_ip : Option (List Char)) (rip : List Char)
    (h : verify_peer_subnet rip own_ip = true) :
    start_sender true own_ip (some data) basename peer_ip (some rip) =
      ([SockEv.bindServer TCP_PORT, SockEv.listen 1,
        SockEv.setAcceptTimeout HOSTING_TIMEOUT,
        (match peer_ip with
         | some p => SockEv.notifyDirect p
         | none => SockEv.notifyBroadcast),
        SockEv.accept rip,
        SockEv.sendall (encodeHeader basename data.length),
        SockEv.sendall data,
        SockEv.closeConn, SockEv.closeServer], .sent) := by
  simp [start_sender, h]

theorem start_sender_hosts_witness :
    verify_peer_subnet (chars "10.0.0.9") (chars "10.0.0.5") = true ∧
    start_sender true (chars "10.0.0.5") (some [1, 2, 3]) [97] none (some (chars "10.0.0.9")) =
      ([SockEv.bindServer TCP_PORT, SockEv.listen 1,
        SockEv.setAcceptTimeout HOSTING_TIMEOUT, SockEv.notifyBroadcast,
        SockEv.accept (chars "10.0.0.9"),
        SockEv.sendall (encodeHeader [97] 3),
        SockEv.sendall [1, 2, 3],
        SockEv.closeConn, SockEv.closeServer], .sent) :=
  ⟨by decide,
   start_sender_hosts (chars "10.0.0.5") [1, 2, 3] [97] none (chars "10.0.0.9") (by decide)⟩

/-- C4 counterexample: `is_same_subnet` accepts two link-local
(`169.254.0.0/16`) addresses, while the claimed contract requires them to
be rejected. -/
theorem is_same_subnet_linklocal_counterexample :
    is_same_subnet (chars "169.254.1.1") (chars "169.254.1.2") = true ∧
    claimSameSubnet (chars "169.254.1.1") (chars "169.254.1.2") = false := by
  exact ⟨by decide, by decide⟩

/-- C4 (amended): `is_same_subnet a b` is true iff both strings parse as IP
addresses, neither is loopback, and their `get_subnet_prefix` values (the
first three dotted octets, or the empty prefix) coincide.  Link-local
addresses are not excluded. -/
theorem is_same_subnet_characterization (a b : List Char) :
    is_same_subnet a b = true ↔
      (∃ ia, ip_address a = some ia ∧ ia.is_loopback = false) ∧
      (∃ ib, ip_address b = some ib ∧ ib.is_loopback = false) ∧
      get_subnet_prefix a = get_subnet_prefix b := by
  cases ha : ip_address a with
  | none => simp [is_same_subnet, ha]
  | some ia =>
    cases hb : ip_address b with
    | none => cases hl : ia.is_loopback <;> simp [is_same_subnet, ha, hb, hl]
    | some ib =>
      cases hl : ia.is_loopback <;> cases hl' : ib.is_loopback <;>
        simp [is_same_subnet, ha, hb, hl, hl', beq_iff_eq]

/-- C9: both coordinator-launched task wrappers set `active = false` and
publish a terminal status string on every exit path, including the path
where the wrapped transfer function raises. -/
theorem task_wrappers_release (rs rr : Except String Unit) :
    (run_sender rs).active = false ∧
    ((run_sender rs).status = "SEND DONE" ∨ (run_sender rs).status = "SEND FAILED") ∧
    (run_receiver rr).active = false ∧
    ((run_receiver rr).status = "RECEIVE DONE" ∨
      (run_receiver rr).status = "RECEIVE FAILED") := by
  cases rs <;> cases rr <;> simp [run_sender, run_receiver]

/-- C10: `is_same_subnet` is a total function; when either argument fails
to parse as an IP address it returns `false` (the code's `except ValueError`
path), while two distinct valid non-loopback IPv6 addresses share the empty
subnet prefix and therefore compare as the same subnet. -/
theorem is_same_subnet_total_safe :
    (∀ a b : List Char, ip_address a = none → is_same_subnet a b = false) ∧
    (∀ a b : List Char, ip_address b = none → is_same_subnet a b = false) ∧
    is_same_subnet (chars "256.1.1.1") (chars "10.0.0.1") = false ∧
    is_same_subnet (chars "fe80::1") (chars "2001:db8::1") = true := by
  refine ⟨?_, ?_, by decide, by decide⟩
  · intro a b h; simp [is_same_subnet, h]
  · intro a b h
    cases ha : ip_address a with
    | none => simp [is_same_subnet, ha]
    | some ia => cases hl : ia.is_loopback <;> simp [is_same_subnet, ha, hl, h]

theorem is_same_subnet_total_safe_witness :
    ip_address (chars "not an ip") = none ∧
    is_same_subnet (chars "not an ip") (chars "10.0.0.1") = false :=
  ⟨by decide, is_same_subnet_total_safe.1 (chars "not an ip") (chars "10.0.0.1") (by decide)⟩

/-- C6: every record returned by `get_peers` satisfies
`now - last_seen < PEER_TIMEOUT` at the moment of the call. -/
theorem get_peers_fresh (now : ℤ) (tbl : PeerTable) (p : String × PeerInfo)
    (h : p ∈ get_peers now tbl) : now - p.2.last_seen < PEER_TIMEOUT :=
  of_decide_eq_true (List.mem_filter.mp h).2

theorem get_peers_fresh_witness :
    ("10.0.0.5", (⟨"A", 0, "broadcast"⟩ : PeerInfo)) ∈
      get_peers 5 [("10.0.0.5", ⟨"A", 0, "broadcast"⟩)] ∧
    (5 : ℤ) - (⟨"A", (0 : ℤ), "broadcast"⟩ : PeerInfo).last_seen < PEER_TIMEOUT :=
  ⟨by decide,
   get_peers_fresh 5 [("10.0.0.5", ⟨"A", 0, "broadcast"⟩)]
     ("10.0.0.5", ⟨"A", 0, "broadcast"⟩) (by decide)⟩

/-- After an upsert the fresh record for `ip` is a member of the table
(whether it was inserted or replaced an existing entry). -/
theorem upsert_mem (tbl : PeerTable) (ip h : String) (now : ℤ) (v : String) :
    (ip, (⟨h, now, v⟩ : PeerInfo)) ∈ (_upsert_peer tbl ip h now v).1 := by
  unfold _upsert_peer
  by_cases hn : tbl.any (fun p => p.1 == ip)
  · simp only [hn, Bool.not_true, if_neg Bool.false_ne_true]
    obtain ⟨x, hx, hpx⟩ := List.any_eq_true.mp hn
    exact List.mem_map.mpr ⟨x, hx, by simp [hpx]⟩
  · simp [hn]

/-- `_upsert_peer` reports a join exactly when the address was absent. -/
theorem upsert_fires_iff (tbl : PeerTable) (ip h : String) (now : ℤ) (v : String) :
    (_upsert_peer tbl ip h now v).2 = true ↔ ¬ ∃ info, (ip, info) ∈ tbl := by
  have key : tbl.any (fun p => p.1 == ip) = true ↔ ∃ info, (ip, info) ∈ tbl := by
    rw [List.any_eq_true]
    constructor
    · rintro ⟨⟨k, i⟩, hmem, hk⟩
      have hk' : k = ip := by simpa using hk
      subst hk'
      exact ⟨i, hmem⟩
    · rintro ⟨info, hmem⟩
      exact ⟨(ip, info), hmem, by simp⟩
  simp only [_upsert_peer, Bool.not_eq_true']
  rw [Bool.eq_false_iff]
  exact not_congr key

/-- Replacing the record of a present key makes it the looked-up value. -/
theorem lookup_map_replace (xs : PeerTable) (ip : String) (rec : PeerInfo)
    (hxs : xs.any (fun p => p.1 == ip) = true) :
    List.lookup ip (xs.map (fun p => if p.1 == ip then (ip, rec) else p)) = some rec := by
  induction xs with
  | nil => simp at hxs
  | cons x xs ih =>
    rcases x with ⟨k, i⟩
    rw [List.map_cons]
    by_cases hk : k = ip
    · subst hk
      have hhead : (if ((k, i).1 == k) = true then (k, rec) else (k, i)) = (k, rec) := by
        simp
      rw [hhead]
      simp [List.lookup]
    · have h1 : (k == ip) = false := by simpa using hk
      have h2 : (ip == k) = false := by simpa using (Ne.symm hk)
      have hhead : (if ((k, i).1 == ip) = true then (ip, rec) else (k, i)) = (k, i) := by
        simp [h1]
      rw [hhead]
      simp only [List.any_cons, h1, Bool.false_or] at hxs
      simp only [List.lookup, h2]
      exact ih hxs

/-- Appending a fresh record for an absent key makes it the looked-up value. -/
theorem lookup_append_new (xs : PeerTable) (ip : String) (rec : PeerInfo)
    (hxs : xs.any (fun p => p.1 == ip) = false) :
    List.lookup ip (xs ++ [(ip, rec)]) = some rec := by
  induction xs with
  | nil => simp [List.lookup]
  | cons x xs ih =>
    rcases x with ⟨k, i⟩
    simp only [List.any_cons, Bool.or_eq_false_iff] at hxs
    have h2 : (ip == k) = false := by
      have : ¬ k = ip := by simpa using hxs.1
      simpa using (Ne.symm this)
    simp [List.lookup, h2, ih hxs.2]

/-- The record stored for `ip` right after an upsert is the fresh one. -/
theorem lookup_upsert (tbl : PeerTable) (ip h : String) (now : ℤ) (v : String) :
    List.lookup ip (_upsert_peer tbl ip h now v).1 = some ⟨h, now, v⟩ := by
  cases hn : tbl.any (fun p => p.1 == ip) with
  | true =>
    have : (_upsert_peer tbl ip h now v).1 =
        tbl.map (fun p => if p.1 == ip then (ip, ⟨h, now, v⟩) else p) := by
      simp [_upsert_peer, hn]
    rw [this]
    exact lookup_map_replace tbl ip _ hn
  | false =>
    have : (_upsert_peer tbl ip h now v).1 = tbl ++ [(ip, ⟨h, now, v⟩)] := by
      simp [_upsert_peer, hn]
    rw [this]
    exact lookup_append_new tbl ip _ hn

/-- C7 counterexample: a refresh does not only update `last_seen` and
`via` — the stored hostname is replaced wholesale by the new sighting. -/
theorem upsert_refresh_counterexample : ¬ refreshKeepsHostname :=
  fun h =>
    absurd
      (h [("10.0.0.5", ⟨"A", 0, "broadcast"⟩)] "10.0.0.5" "B" 1 "direct"
        ⟨"A", 0, "broadcast"⟩ (by decide))
      (by decide)

/-- C7 (amended): the join callback fires exactly when the address is
absent (newness is decided together with the insert); a second upsert while
the record is present never fires it; upserting after eviction fires it
again; and a refresh replaces the whole stored record — `last_seen`, `via`
and the hostname. -/
theorem upsert_join_semantics (tbl : PeerTable) (ip h1 h2 : String)
    (now1 now2 : ℤ) (v1 v2 : String) :
    ((_upsert_peer tbl ip h1 now1 v1).2 = true ↔ ¬ ∃ info, (ip, info) ∈ tbl) ∧
    (_upsert_peer (_upsert_peer tbl ip h1 now1 v1).1 ip h2 now2 v2).2 = false ∧
    (_upsert_peer (evictPeer tbl ip) ip h1 now1 v1).2 = true ∧
    List.lookup ip (_upsert_peer tbl ip h1 now1 v1).1 = some ⟨h1, now1, v1⟩ := by
  refine ⟨upsert_fires_iff tbl ip h1 now1 v1, ?_, ?_, lookup_upsert tbl ip h1 now1 v1⟩
  · have hmem := upsert_mem tbl ip h1 now1 v1
    cases hfire : (_upsert_peer (_upsert_peer tbl ip h1 now1 v1).1 ip h2 now2 v2).2 with
    | false => rfl
    | true =>
      exact absurd ⟨_, hmem⟩ ((upsert_fires_iff _ ip h2 now2 v2).mp hfire)
  · apply (upsert_fires_iff _ ip h1 now1 v1).mpr
    rintro ⟨info, hmem⟩
    have := (List.mem_filter.mp hmem).2
    simp at this

/-- Reading exactly the length of a prefix consumes precisely that prefix. -/
theorem recv_exact_append (a b : List Nat) : recv_exact (a ++ b) a.length = some (a, b) := by
  unfold recv_exact
  cases a with
  | nil => simp [recvExactAux]
  | cons x xs =>
    simp [recvExactAux, recv, List.take_left, List.drop_left]
    rw [recvExactAux.eq_def]
    simp

theorem unpack_packU32 (n : Nat) (h : n < 4294967296) : unpackLE (packU32 n) = n := by
  simp [unpackLE, packU32]
  omega

theorem unpack_packU64 (n : Nat) (h : n < 18446744073709551616) :
    unpackLE (packU64 n) = n := by
  simp [unpackLE, packU64]
  omega

/-- C8: decoding with the receiver's header-parsing steps is a left inverse
of the sender's header encoding, for every filename (as UTF-8 bytes) and
file size within the `uint32`/`uint64` ranges; the remaining stream is
untouched. -/
theorem header_roundtrip (fn : List Nat) (sz : Nat) (rest : List Nat)
    (hfn : fn.length < 4294967296) (hsz : sz < 18446744073709551616) :
    readHeader (encodeHeader fn sz ++ rest) = some (fn, sz, rest) := by
  have hassoc : encodeHeader fn sz ++ rest
      = packU32 fn.length ++ (fn ++ (packU64 sz ++ rest)) := by
    simp [encodeHeader, List.append_assoc]
  have h4 : (packU32 fn.length).length = 4 := rfl
  have h8 : (packU64 sz).length = 8 := rfl
  have e1 : recv_exact (packU32 fn.length ++ (fn ++ (packU64 sz ++ rest))) 4
      = some (packU32 fn.length, fn ++ (packU64 sz ++ rest)) := by
    rw [← h4]; exact recv_exact_append _ _
  have e2 : recv_exact (fn ++ (packU64 sz ++ rest)) fn.length
      = some (fn, packU64 sz ++ rest) := recv_exact_append _ _
  have e3 : recv_exact (packU64 sz ++ rest) 8 = some (packU64 sz, rest) := by
    rw [← h8]; exact recv_exact_append _ _
  simp only [readHeader, hassoc, e1, unpack_packU32 _ hfn, e2, e3,
    unpack_packU64 _ hsz]

/-- C8 witness: the concrete round trip for filename `"a.png"`
(UTF-8 bytes `[97, 46, 112, 110, 103]`) and size `12345`. -/
theorem header_roundtrip_witness :
    ([97, 46, 112, 110, 103] : List Nat).length < 4294967296 ∧
    (12345 : Nat) < 18446744073709551616 ∧
    readHeader (encodeHeader [97, 46, 112, 110, 103] 12345) =
      some ([97, 46, 112, 110, 103], 12345, []) := by
  refine ⟨by decide, by decide, ?_⟩
  have := header_roundtrip [97, 46, 112, 110, 103] 12345 [] (by decide) (by decide)
  simpa using this

/-- What the body loop computes: it appends the first
`filesize - received` available bytes and counts how many actually arrived. -/
theorem recvBodyAux_eq (fuel : Nat) :
    ∀ (stream data : List Nat) (received filesize : Nat),
      filesize - received ≤ fuel →
      recvBodyAux fuel stream data received filesize =
        (data ++ stream.take (filesize - received),
         received + min (filesize - received) stream.length) := by
  induction fuel with
  | zero =>
    intro stream data received filesize h
    have hnot : ¬ received < filesize := by omega
    have h0 : filesize - received = 0 := by omega
    rw [recvBodyAux]
    simp [hnot, h0]
  | succ fuel ih =>
    intro stream data received filesize h
    rw [recvBodyAux]
    by_cases hlt : received < filesize
    · rw [if_pos hlt]
      cases stream with
      | nil =>
        simp
      | cons y ys =>
        have hkle : min BUFFER_SIZE (filesize - received) ≤ filesize - received :=
          Nat.min_le_right _ _
        have hk1 : 1 ≤ min BUFFER_SIZE (filesize - received) := by
          have h1 : 1 ≤ BUFFER_SIZE := by decide
          omega
        obtain ⟨k', hk'⟩ : ∃ k', min BUFFER_SIZE (filesize - received) = k' + 1 :=
          ⟨min BUFFER_SIZE (filesize - received) - 1, by omega⟩
        rw [hk', List.take_succ_cons, List.drop_succ_cons]
        rw [if_neg (by simp : ¬(((y :: ys.take k').isEmpty) = true))]
        have hlen : (y :: ys.take k').length = 1 + min k' ys.length := by
          simp [List.length_take]
          omega
        rw [ih (ys.drop k') (data ++ (y :: ys.take k'))
          (received + (y :: ys.take k').length) filesize (by rw [hlen]; omega)]
        have hlist : ys.take k' ++
            (ys.drop k').take (filesize - (received + (y :: ys.take k').length)) =
            ys.take (filesize - received - 1) := by
          rw [hlen]
          rcases le_or_lt k' ys.length with hcase | hcase
          · rw [Nat.min_eq_left hcase, ← List.take_add]
            congr 1
            omega
          · have h1 : ys.take k' = ys := List.take_of_length_le (Nat.le_of_lt hcase)
            have h2 : ys.drop k' = [] := List.drop_eq_nil_of_le (Nat.le_of_lt hcase)
            rw [h1, h2, List.take_nil, List.append_nil]
            refine (List.take_of_length_le ?_).symm
            omega
        simp only [Prod.mk.injEq]
        constructor
        · rw [List.append_assoc]
          congr 1
          obtain ⟨m, hm⟩ : ∃ m, filesize - received = m + 1 :=
            ⟨filesize - received - 1, by omega⟩
          rw [hm, List.take_succ_cons, List.cons_append]
          congr 1
          have hm' : m = filesize - received - 1 := by omega
          rw [hm']
          exact hlist
        · rw [hlen, List.length_drop]
          simp only [List.length_cons]
          have hb : BUFFER_SIZE = 65536 := rfl
          rw [hb] at hk'
          omega
    · rw [if_neg hlt]
      have h0 : filesize - received = 0 := by omega
      simp [h0]

/-- The body loop starting from an empty buffer: it collects the first
`filesize` bytes and counts how many actually arrived before the close. -/
theorem recvBody_full (body : List Nat) (sz : Nat) :
    recvBodyAux sz body [] 0 sz = (body.take sz, min sz body.length) := by
  have := recvBodyAux_eq sz body [] 0 sz (by omega)
  simpa using this

/-- C5: a receive-handler run never persists partial data — the connection
is always closed; a subnet-policy rejection writes nothing; a short header
read (`recv_exact` raising `ConnectionError`) writes nothing; and when
fewer than `fileSize` body bytes arrive before the connection closes, the
partial data is discarded and the run reports the incomplete transfer. -/
theorem receiver_discard_on_failure (sender_ip own_ip : List Char)
    (stream : List Nat) (ts : Nat) :
    ((_handle_connection sender_ip own_ip stream ts).closed = true) ∧
    (verify_peer_subnet sender_ip own_ip = false →
      _handle_connection sender_ip own_ip stream ts = ⟨.rejected, [], true⟩) ∧
    (readHeader stream = none →
      (_handle_connection sender_ip own_ip stream ts).written = []) ∧
    (∀ fn sz body, readHeader stream = some (fn, sz, body) → body.length < sz →
      (_handle_connection sender_ip own_ip stream ts).written = [] ∧
      (verify_peer_subnet sender_ip own_ip = true →
        (_handle_connection sender_ip own_ip stream ts).outcome =
          .incomplete body.length sz)) := by
  refine ⟨?_, ?_, ?_, ?_⟩
  · cases hv : verify_peer_subnet sender_ip own_ip with
    | false => simp [_handle_connection, hv]
    | true =>
      cases hr : readHeader stream with
      | none => simp [_handle_connection, hv, hr]
      | some trip =>
        obtain ⟨fn, sz, body⟩ := trip
        by_cases hc : (recvBodyAux sz body [] 0 sz).2 = sz <;>
          simp [_handle_connection, hv, hr, hc]
  · intro hv
    simp [_handle_connection, hv]
  · intro hr
    cases hv : verify_peer_subnet sender_ip own_ip <;>
      simp [_handle_connection, hv, hr]
  · intro fn sz body hr hlen
    have hfull := recvBody_full body sz
    have hne : (recvBodyAux sz body [] 0 sz).2 ≠ sz := by
      rw [hfull]
      simp
      omega
    constructor
    · cases hv : verify_peer_subnet sender_ip own_ip <;>
        simp [_handle_connection, hv, hr, hne]
    · intro hv
      have hmin : min sz body.length = body.length := by omega
      simp [_handle_connection, hv, hr, hne, hfull, hmin, Nat.ne_of_lt hlen]

theorem receiver_discard_on_failure_witness :
    readHeader (encodeHeader [97] 5) = some ([97], 5, []) ∧
    (_handle_connection (chars "10.0.0.9") (chars "10.0.0.5")
      (encodeHeader [97] 5) 7).written = [] ∧
    (_handle_connection (chars "10.0.0.9") (chars "10.0.0.5")
      (encodeHeader [97] 5) 7).outcome = .incomplete 0 5 :=
  ⟨by decide,
   ((receiver_discard_on_failure (chars "10.0.0.9") (chars "10.0.0.5")
      (encodeHeader [97] 5) 7).2.2.2 [97] 5 [] (by decide) (by decide)).1,
   ((receiver_discard_on_failure (chars "10.0.0.9") (chars "10.0.0.5")
      (encodeHeader [97] 5) 7).2.2.2 [97] 5 [] (by decide) (by decide)).2 (by decide)⟩

end GestureDrop
